import Mathlib

/-!
Shallow embedding of the booking engine of `hghbooking`:
the conflict resolver (`DatabaseStorage.checkConflicts`), the availability
aggregator (`GET /api/availability/:date`) and the status workflow
(`DatabaseStorage.updateBookingStatus` plus `PATCH /api/bookings/:id/status`),
over a list model of the `booking_requests` table.
-/

/-- `pitch_type` enum from `src/shared/schema.ts`: closed two-value set. -/
inductive PitchType
  | single_court
  | full_pitch
deriving DecidableEq, Repr

/-- `booking_status` enum from `src/shared/schema.ts`. -/
inductive BookingStatus
  | pending
  | approved
  | declined
deriving DecidableEq, Repr

/-- `booking_frequency` enum from `src/shared/schema.ts`. -/
inductive BookingFrequency
  | one_off
  | weekly
  | fortnightly
  | monthly
deriving DecidableEq, Repr

/-- A row of the `booking_requests` table (`src/shared/schema.ts`). -/
structure BookingRequest where
  id : String
  name : String
  email : String
  phone : String
  age : Int
  reason : String
  estimatedAttendees : Int
  pitchType : PitchType
  bookingDate : String
  timeSlots : List String
  frequency : BookingFrequency
  status : BookingStatus
  adminNotes : Option String
  createdAt : Int
deriving DecidableEq, Repr

/-- Result shape of `checkConflicts` (`ConflictInfo` in `src/server/storage.ts`). -/
structure ConflictInfo where
  hasConflict : Bool
  conflictingBookings : List BookingRequest
  conflictingSlots : List String
deriving DecidableEq, Repr

/-- The store: the `booking_requests` table in its retrieval order. -/
abbrev Store := List BookingRequest

/-- `DatabaseStorage.getApprovedBookingsByDate`: rows whose `bookingDate`
equals `date` and whose `status` is `approved`, in table order. -/
def getApprovedBookingsByDate (store : Store) (date : String) : List BookingRequest :=
  store.filter (fun b => b.bookingDate == date && b.status == BookingStatus.approved)

/-- `DatabaseStorage.getBookingsByDateAndStatus`. -/
def getBookingsByDateAndStatus (store : Store) (date : String)
    (status : BookingStatus) : List BookingRequest :=
  store.filter (fun b => b.bookingDate == date && b.status == status)

/-- The exclusion test of the loop of `checkConflicts`:
`if (excludeBookingId && booking.id === excludeBookingId) continue;`.
JavaScript truthiness makes an absent or empty-string id exclude nothing. -/
def isExcluded (excludeBookingId : Option String) (booking : BookingRequest) : Bool :=
  match excludeBookingId with
  | none => false
  | some e => e != "" && booking.id == e

/-- The granularity guard computed inside the loop of `checkConflicts`:
`booking.pitchType === "full_pitch" || pitchType === "full_pitch" ||
booking.pitchType === pitchType`. -/
def isConflict (bookingPitch requestPitch : PitchType) : Bool :=
  bookingPitch == PitchType.full_pitch
    || requestPitch == PitchType.full_pitch
    || bookingPitch == requestPitch

/-- The `for (const booking of approvedBookings)` loop of `checkConflicts`,
threading the two accumulators `conflictingBookings` and `conflictingSlots`.
A conflicting booking is appended, and its overlapping slots not already
accumulated are appended after the slots gathered so far. -/
def checkConflictsLoop (timeSlots : List String) (pitchType : PitchType)
    (excludeBookingId : Option String) :
    List BookingRequest → List BookingRequest → List String →
    List BookingRequest × List String
  | [], conflictingBookings, conflictingSlots => (conflictingBookings, conflictingSlots)
  | booking :: rest, conflictingBookings, conflictingSlots =>
    if isExcluded excludeBookingId booking then
      checkConflictsLoop timeSlots pitchType excludeBookingId rest
        conflictingBookings conflictingSlots
    else
      let overlappingSlots := timeSlots.filter (fun slot => booking.timeSlots.contains slot)
      if overlappingSlots.length > 0 then
        if isConflict booking.pitchType pitchType then
          checkConflictsLoop timeSlots pitchType excludeBookingId rest
            (conflictingBookings ++ [booking])
            (conflictingSlots ++ overlappingSlots.filter (fun s => !conflictingSlots.contains s))
        else
          checkConflictsLoop timeSlots pitchType excludeBookingId rest
            conflictingBookings conflictingSlots
      else
        checkConflictsLoop timeSlots pitchType excludeBookingId rest
          conflictingBookings conflictingSlots

/-- `DatabaseStorage.checkConflicts` (`src/server/storage.ts`). -/
def checkConflicts (store : Store) (date : String) (timeSlots : List String)
    (pitchType : PitchType) (excludeBookingId : Option String) : ConflictInfo :=
  let approvedBookings := getApprovedBookingsByDate store date
  let acc := checkConflictsLoop timeSlots pitchType excludeBookingId approvedBookings [] []
  { hasConflict := decide (acc.1.length > 0)
    conflictingBookings := acc.1
    conflictingSlots := acc.2 }

/-- One element of the `takenSlots` array built by `GET /api/availability/:date`. -/
structure TakenSlot where
  timeSlot : String
  pitchType : PitchType
  status : BookingStatus
deriving DecidableEq, Repr

/-- Response shape of `GET /api/availability/:date`. -/
structure AvailabilityView where
  date : String
  takenSlots : List TakenSlot
  approvedBookingsCount : Nat
  pendingBookingsCount : Nat
deriving DecidableEq, Repr

/-- The inner `for (const slot of booking.timeSlots)` loop of the availability
route: one entry per slot, in the record's stored array order, carrying the
literal status the route writes for that group. -/
def bookingEntries (status : BookingStatus) (booking : BookingRequest) : List TakenSlot :=
  booking.timeSlots.map (fun slot =>
    { timeSlot := slot, pitchType := booking.pitchType, status := status })

/-- `GET /api/availability/:date` (`src/server/routes.ts`): approved entries
first, then pending entries, plus record counts. -/
def getAvailability (store : Store) (date : String) : AvailabilityView :=
  let approvedBookings := getApprovedBookingsByDate store date
  let pendingBookings := getBookingsByDateAndStatus store date BookingStatus.pending
  { date := date
    takenSlots :=
      approvedBookings.flatMap (bookingEntries BookingStatus.approved)
        ++ pendingBookings.flatMap (bookingEntries BookingStatus.pending)
    approvedBookingsCount := approvedBookings.length
    pendingBookingsCount := pendingBookings.length }

/-- The `.set({ status, adminNotes })` update applied to a matched row;
drizzle drops `undefined` fields from the SET clause, so an absent note
leaves the stored note unchanged. -/
def applyStatusUpdate (status : BookingStatus) (adminNotes : Option String)
    (booking : BookingRequest) : BookingRequest :=
  { booking with
      status := status
      adminNotes := match adminNotes with
        | some note => some note
        | none => booking.adminNotes }

/-- `DatabaseStorage.updateBookingStatus`: update every row matching `id`
(ids are unique in practice) and return the first updated row, or `none`
when the WHERE clause matched nothing. -/
def updateBookingStatus (store : Store) (id : String) (status : BookingStatus)
    (adminNotes : Option String) : Option BookingRequest × Store :=
  let updated := store.map (fun b =>
    if b.id == id then applyStatusUpdate status adminNotes b else b)
  (updated.find? (fun b => b.id == id), updated)

/-- Error taxonomy of the status route: a Zod parse failure (400) and a
missing record (404). -/
inductive StatusUpdateError
  | invalidState
  | notFound
deriving DecidableEq, Repr

/-- `z.enum(["pending", "approved", "declined"])` of `updateBookingStatusSchema`. -/
def parseBookingStatus : String → Option BookingStatus
  | "pending" => some BookingStatus.pending
  | "approved" => some BookingStatus.approved
  | "declined" => some BookingStatus.declined
  | _ => none

/-- `PATCH /api/bookings/:id/status` (`src/server/routes.ts`): validate the
body first (a Zod failure happens before any store access), then run the
update; a missing id yields 404. Returns the response and the store after
the call. -/
def patchBookingStatus (store : Store) (id : String) (rawStatus : String)
    (adminNotes : Option String) :
    Except StatusUpdateError BookingRequest × Store :=
  match parseBookingStatus rawStatus with
  | none => (Except.error StatusUpdateError.invalidState, store)
  | some status =>
    match updateBookingStatus store id status adminNotes with
    | (none, updated) => (Except.error StatusUpdateError.notFound, updated)
    | (some booking, updated) => (Except.ok booking, updated)

/-- A booking participates as a conflict source of the loop exactly when it
is not excluded, its slots overlap the requested slots, and the granularity
guard holds. -/
def conflictsWith (timeSlots : List String) (pitchType : PitchType)
    (excludeBookingId : Option String) (booking : BookingRequest) : Bool :=
  !isExcluded excludeBookingId booking
    && decide ((timeSlots.filter (fun slot => booking.timeSlots.contains slot)).length > 0)
    && isConflict booking.pitchType pitchType

/-- Unfolding of the conflict-source predicate into its three conjuncts. -/
theorem conflictsWith_iff (timeSlots : List String) (pitchType : PitchType)
    (excludeBookingId : Option String) (b : BookingRequest) :
    conflictsWith timeSlots pitchType excludeBookingId b = true
      ↔ isExcluded excludeBookingId b = false
        ∧ (timeSlots.filter (fun slot => b.timeSlots.contains slot)).length > 0
        ∧ isConflict b.pitchType pitchType = true := by
  simp only [conflictsWith, Bool.and_eq_true, Bool.not_eq_true', decide_eq_true_eq, and_assoc]

/-- The accumulated conflicting bookings are the excluded-and-guard filter of
the traversed list, appended after the accumulator, in traversal order. -/
theorem checkConflictsLoop_fst (timeSlots : List String) (pitchType : PitchType)
    (excludeBookingId : Option String) (l accB : List BookingRequest) (accS : List String) :
    (checkConflictsLoop timeSlots pitchType excludeBookingId l accB accS).1
      = accB ++ l.filter (conflictsWith timeSlots pitchType excludeBookingId) := by
  induction l generalizing accB accS with
  | nil => simp [checkConflictsLoop]
  | cons b rest ih =>
    simp only [checkConflictsLoop]
    by_cases hex : isExcluded excludeBookingId b
    · rw [if_pos hex, ih, List.filter_cons_of_neg
        (fun h => by simp [(conflictsWith_iff _ _ _ _).mp h] at hex)]
    · rw [if_neg hex]
      by_cases hov : (timeSlots.filter (fun slot => b.timeSlots.contains slot)).length > 0
      · by_cases hc : isConflict b.pitchType pitchType
        · rw [if_pos hov, if_pos hc, ih, List.filter_cons_of_pos
            ((conflictsWith_iff _ _ _ _).mpr ⟨Bool.eq_false_iff.mpr hex, hov, hc⟩)]
          simp
        · rw [if_pos hov, if_neg hc, ih, List.filter_cons_of_neg
            (fun h => hc ((conflictsWith_iff _ _ _ _).mp h).2.2)]
      · rw [if_neg hov, ih, List.filter_cons_of_neg
          (fun h => hov ((conflictsWith_iff _ _ _ _).mp h).2.1)]

/-- A slot is accumulated by the loop exactly when it was already accumulated
or some traversed booking is a conflict source overlapping it. -/
theorem checkConflictsLoop_snd_mem (timeSlots : List String) (pitchType : PitchType)
    (excludeBookingId : Option String) (l : List BookingRequest) (accB : List BookingRequest)
    (accS : List String) (s : String) :
    s ∈ (checkConflictsLoop timeSlots pitchType excludeBookingId l accB accS).2
      ↔ s ∈ accS ∨ ∃ b ∈ l, conflictsWith timeSlots pitchType excludeBookingId b = true
          ∧ s ∈ timeSlots ∧ s ∈ b.timeSlots := by
  induction l generalizing accB accS with
  | nil => simp [checkConflictsLoop]
  | cons b rest ih =>
    simp only [checkConflictsLoop]
    by_cases hex : isExcluded excludeBookingId b
    · rw [if_pos hex, ih]
      constructor
      · rintro (h | h)
        · exact Or.inl h
        · exact Or.inr (h.imp fun b' hb' => ⟨List.mem_cons_of_mem _ hb'.1, hb'.2⟩)
      · rintro (h | ⟨b', hb', hcw, Hs⟩)
        · exact Or.inl h
        · rcases List.mem_cons.mp hb' with rfl | hb'
          · exact absurd ((conflictsWith_iff _ _ _ _).mp hcw).1 (by simp [hex])
          · exact Or.inr ⟨b', hb', hcw, Hs⟩
    · rw [if_neg hex]
      by_cases hov : (timeSlots.filter (fun slot => b.timeSlots.contains slot)).length > 0
      · by_cases hc : isConflict b.pitchType pitchType
        · rw [if_pos hov, if_pos hc, ih]
          have hmem : ∀ x : String,
              x ∈ accS ++ (timeSlots.filter (fun slot => b.timeSlots.contains slot)).filter
                  (fun x => !accS.contains x)
                ↔ x ∈ accS ∨ (x ∈ timeSlots ∧ x ∈ b.timeSlots) := by
            intro x
            by_cases hacc : x ∈ accS <;>
              simp [hacc, List.mem_append, List.mem_filter]
          rw [hmem]
          have hcw : conflictsWith timeSlots pitchType excludeBookingId b = true :=
            (conflictsWith_iff _ _ _ _).mpr ⟨Bool.eq_false_iff.mpr hex, hov, hc⟩
          constructor
          · rintro ((h | h) | h)
            · exact Or.inl h
            · exact Or.inr ⟨b, List.mem_cons_self _ _, hcw, h⟩
            · rcases h with ⟨b', hb', H⟩
              exact Or.inr ⟨b', List.mem_cons_of_mem _ hb', H⟩
          · rintro (h | ⟨b', hb', hcw', Hs⟩)
            · exact Or.inl (Or.inl h)
            · rcases List.mem_cons.mp hb' with rfl | hb'
              · exact Or.inl (Or.inr Hs)
              · exact Or.inr ⟨b', hb', hcw', Hs⟩
        · rw [if_pos hov, if_neg hc, ih]
          constructor
          · rintro (h | h)
            · exact Or.inl h
            · exact Or.inr (h.imp fun b' hb' => ⟨List.mem_cons_of_mem _ hb'.1, hb'.2⟩)
          · rintro (h | ⟨b', hb', hcw, Hs⟩)
            · exact Or.inl h
            · rcases List.mem_cons.mp hb' with rfl | hb'
              · exact absurd ((conflictsWith_iff _ _ _ _).mp hcw).2.2 hc
              · exact Or.inr ⟨b', hb', hcw, Hs⟩
      · rw [if_neg hov, ih]
        constructor
        · rintro (h | h)
          · exact Or.inl h
          · exact Or.inr (h.imp fun b' hb' => ⟨List.mem_cons_of_mem _ hb'.1, hb'.2⟩)
        · rintro (h | ⟨b', hb', hcw, Hs⟩)
          · exact Or.inl h
          · rcases List.mem_cons.mp hb' with rfl | hb'
            · exact absurd ((conflictsWith_iff _ _ _ _).mp hcw).2.1 hov
            · exact Or.inr ⟨b', hb', hcw, Hs⟩

/-- The slot accumulator never acquires a duplicate when the requested slots
have none, thanks to the `!conflictingSlots.includes(s)` guard. -/
theorem checkConflictsLoop_snd_nodup (timeSlots : List String) (pitchType : PitchType)
    (excludeBookingId : Option String) (l : List BookingRequest)
    (hts : timeSlots.Nodup) :
    ∀ (accB : List BookingRequest) (accS : List String), accS.Nodup →
      (checkConflictsLoop timeSlots pitchType excludeBookingId l accB accS).2.Nodup := by
  induction l with
  | nil =>
    intro accB accS hacc
    simpa [checkConflictsLoop] using hacc
  | cons b rest ih =>
    intro accB accS hacc
    simp only [checkConflictsLoop]
    by_cases hex : isExcluded excludeBookingId b
    · rw [if_pos hex]
      exact ih _ _ hacc
    · rw [if_neg hex]
      by_cases hov : (timeSlots.filter (fun slot => b.timeSlots.contains slot)).length > 0
      · by_cases hc : isConflict b.pitchType pitchType
        · rw [if_pos hov, if_pos hc]
          refine ih _ _ (List.Nodup.append hacc ((hts.filter _).filter _) ?_)
          intro x hx hx2
          have h2 := (List.mem_filter.mp hx2).2
          simp only [Bool.not_eq_true', List.contains_eq_any_beq] at h2
          exact absurd hx (by simpa using List.any_eq_false.mp h2 x)
        · rw [if_pos hov, if_neg hc]
          exact ih _ _ hacc
      · rw [if_neg hov]
        exact ih _ _ hacc

/-- Membership in the approved-by-date retrieval. -/
theorem mem_getApprovedBookingsByDate (store : Store) (date : String) (b : BookingRequest) :
    b ∈ getApprovedBookingsByDate store date
      ↔ b ∈ store ∧ b.bookingDate = date ∧ b.status = BookingStatus.approved := by
  simp [getApprovedBookingsByDate, List.mem_filter, and_assoc]

/-- The reported conflicting bookings are exactly the conflict-source filter of
the approved records of the date, in retrieval order. -/
theorem checkConflicts_conflictingBookings (store : Store) (date : String)
    (timeSlots : List String) (pitchType : PitchType) (excludeBookingId : Option String) :
    (checkConflicts store date timeSlots pitchType excludeBookingId).conflictingBookings
      = (getApprovedBookingsByDate store date).filter
          (conflictsWith timeSlots pitchType excludeBookingId) := by
  simp [checkConflicts, checkConflictsLoop_fst]

/-- `hasConflict` is set exactly when some conflicting booking was accumulated. -/
theorem checkConflicts_hasConflict_iff (store : Store) (date : String)
    (timeSlots : List String) (pitchType : PitchType) (excludeBookingId : Option String) :
    (checkConflicts store date timeSlots pitchType excludeBookingId).hasConflict = true
      ↔ (checkConflicts store date timeSlots pitchType excludeBookingId).conflictingBookings
          ≠ [] := by
  simp only [checkConflicts, decide_eq_true_eq, gt_iff_lt, List.length_pos]

/-- A slot is reported exactly when it is a requested slot held by some
reported conflicting booking. -/
theorem checkConflicts_mem_conflictingSlots (store : Store) (date : String)
    (timeSlots : List String) (pitchType : PitchType) (excludeBookingId : Option String)
    (s : String) :
    s ∈ (checkConflicts store date timeSlots pitchType excludeBookingId).conflictingSlots
      ↔ ∃ b ∈ (checkConflicts store date timeSlots pitchType
            excludeBookingId).conflictingBookings, s ∈ timeSlots ∧ s ∈ b.timeSlots := by
  rw [checkConflicts_conflictingBookings]
  simp only [checkConflicts, checkConflictsLoop_snd_mem, List.not_mem_nil, false_or,
    List.mem_filter]
  constructor
  · rintro ⟨b, hb, hcw, hs⟩
    exact ⟨b, ⟨hb, hcw⟩, hs⟩
  · rintro ⟨b, ⟨hb, hcw⟩, hs⟩
    exact ⟨b, hb, hcw, hs⟩

/-- A concrete slot-level overlap makes the `overlappingSlots` array of the
loop non-empty. -/
theorem overlap_length_pos {timeSlots : List String} {b : BookingRequest}
    (hover : ∃ s ∈ timeSlots, s ∈ b.timeSlots) :
    (timeSlots.filter (fun slot => b.timeSlots.contains slot)).length > 0 := by
  obtain ⟨s, hs, hsb⟩ := hover
  exact List.length_pos.mpr
    (List.ne_nil_of_mem (List.mem_filter.mpr ⟨hs, by simpa using hsb⟩))

/-- Spec §8 scenario A record: approved whole-pitch booking. -/
def rcFullPitch : BookingRequest :=
  { id := "rec-a", name := "Dana", email := "dana@example.com", phone := "0400000001",
    age := 25, reason := "weekly futsal training", estimatedAttendees := 10,
    pitchType := PitchType.full_pitch, bookingDate := "2025-06-01",
    timeSlots := ["18:00", "18:30"], frequency := BookingFrequency.one_off,
    status := BookingStatus.approved, adminNotes := none, createdAt := 0 }

/-- Spec §8 scenario C record: pending single-court booking. -/
def rcPendingSingle : BookingRequest :=
  { id := "rec-b", name := "Eli", email := "eli@example.com", phone := "0400000002",
    age := 30, reason := "casual game with friends", estimatedAttendees := 8,
    pitchType := PitchType.single_court, bookingDate := "2025-06-02",
    timeSlots := ["09:00"], frequency := BookingFrequency.one_off,
    status := BookingStatus.pending, adminNotes := none, createdAt := 0 }

/-- Approved single-court booking used as a witness store. -/
def rcApprovedSingle : BookingRequest :=
  { id := "rec-c", name := "Finn", email := "finn@example.com", phone := "0400000003",
    age := 22, reason := "club practice session", estimatedAttendees := 6,
    pitchType := PitchType.single_court, bookingDate := "2025-06-03",
    timeSlots := ["10:00", "10:30"], frequency := BookingFrequency.weekly,
    status := BookingStatus.approved, adminNotes := none, createdAt := 0 }

/-- An approved record carrying the empty string as its id. -/
def rcEmptyId : BookingRequest :=
  { id := "", name := "Gus", email := "gus@example.com", phone := "0400000004",
    age := 40, reason := "corporate team building", estimatedAttendees := 12,
    pitchType := PitchType.single_court, bookingDate := "2025-06-01",
    timeSlots := ["18:00"], frequency := BookingFrequency.one_off,
    status := BookingStatus.approved, adminNotes := none, createdAt := 0 }

/-- An approved record whose stored slot array is not ascending. -/
def rcUnsorted : BookingRequest :=
  { id := "rec-u", name := "Hana", email := "hana@example.com", phone := "0400000005",
    age := 28, reason := "evening social tournament", estimatedAttendees := 14,
    pitchType := PitchType.single_court, bookingDate := "2025-07-01",
    timeSlots := ["19:00", "18:00"], frequency := BookingFrequency.one_off,
    status := BookingStatus.approved, adminNotes := none, createdAt := 0 }

/-- C1: for every approved record on the requested date whose slot set meets
the requested slots, `checkConflicts` reports a conflict for that record
exactly when the candidate is `full_pitch`, or the request is `full_pitch`,
or both pitch types are equal. -/
theorem claim_c1_granularity_rule (store : Store) (date : String)
    (timeSlots : List String) (pitchType : PitchType) (b : BookingRequest)
    (hmem : b ∈ store) (hst : b.status = BookingStatus.approved)
    (hdate : b.bookingDate = date) (hover : ∃ s ∈ timeSlots, s ∈ b.timeSlots) :
    b ∈ (checkConflicts store date timeSlots pitchType none).conflictingBookings
      ↔ (b.pitchType = PitchType.full_pitch ∨ pitchType = PitchType.full_pitch
          ∨ b.pitchType = pitchType) := by
  rw [checkConflicts_conflictingBookings, List.mem_filter]
  have happ : b ∈ getApprovedBookingsByDate store date :=
    (mem_getApprovedBookingsByDate _ _ _).mpr ⟨hmem, hdate, hst⟩
  constructor
  · intro h
    have hc := ((conflictsWith_iff _ _ _ _).mp h.2).2.2
    simpa [isConflict, or_assoc] using hc
  · intro h
    refine ⟨happ, (conflictsWith_iff _ _ _ _).mpr ⟨rfl, overlap_length_pos hover, ?_⟩⟩
    simpa [isConflict, or_assoc] using h

/-- C1 witness at spec §8 scenario A. -/
theorem claim_c1_witness :
    rcFullPitch ∈ (checkConflicts [rcFullPitch] "2025-06-01" ["18:30", "19:00"]
        PitchType.single_court none).conflictingBookings :=
  (claim_c1_granularity_rule [rcFullPitch] "2025-06-01" ["18:30", "19:00"]
      PitchType.single_court rcFullPitch (List.mem_singleton_self _) rfl rfl
      ⟨"18:30", by decide, by decide⟩).mpr (Or.inl rfl)

/-- Removing the status filter of the approved-by-date query is invisible to
the query: filtering to approved rows first changes nothing. -/
theorem getApproved_filter_status (store : Store) (date : String) :
    getApprovedBookingsByDate (store.filter (fun b => b.status == BookingStatus.approved))
        date
      = getApprovedBookingsByDate store date := by
  simp only [getApprovedBookingsByDate, List.filter_filter]
  congr 1
  funext b
  cases hb : b.status == BookingStatus.approved <;> simp [hb]

/-- C2: only approved records of the date contribute: the result is invariant
under discarding every non-approved record, and every reported conflicting
booking is an approved store record of the date. -/
theorem claim_c2_only_approved (store : Store) (date : String) (timeSlots : List String)
    (pitchType : PitchType) (excludeBookingId : Option String) :
    checkConflicts store date timeSlots pitchType excludeBookingId
        = checkConflicts (store.filter (fun b => b.status == BookingStatus.approved))
            date timeSlots pitchType excludeBookingId
      ∧ ∀ b ∈ (checkConflicts store date timeSlots pitchType
            excludeBookingId).conflictingBookings,
          b ∈ store ∧ b.bookingDate = date ∧ b.status = BookingStatus.approved := by
  constructor
  · simp [checkConflicts, getApproved_filter_status]
  · intro b hb
    rw [checkConflicts_conflictingBookings] at hb
    exact (mem_getApprovedBookingsByDate _ _ _).mp (List.mem_filter.mp hb).1

/-- C2 witness: a pending record never blocks (spec §8 scenario C), and a
reported conflicting booking is approved. -/
theorem claim_c2_witness :
    (checkConflicts [rcPendingSingle] "2025-06-02" ["09:00"] PitchType.single_court
        none).hasConflict = false
      ∧ rcFullPitch.status = BookingStatus.approved := by
  constructor
  · rw [(claim_c2_only_approved [rcPendingSingle] "2025-06-02" ["09:00"]
        PitchType.single_court none).1]
    decide
  · exact ((claim_c2_only_approved [rcFullPitch] "2025-06-01" ["18:00"]
        PitchType.single_court none).2 rcFullPitch (by decide)).2.2

/-- A request with no slots makes the loop a no-op. -/
theorem checkConflictsLoop_nil_slots (pitchType : PitchType)
    (excludeBookingId : Option String) (l : List BookingRequest) :
    ∀ (accB : List BookingRequest) (accS : List String),
      checkConflictsLoop [] pitchType excludeBookingId l accB accS = (accB, accS) := by
  induction l with
  | nil => intro accB accS; rfl
  | cons b rest ih =>
    intro accB accS
    simp only [checkConflictsLoop]
    by_cases hex : isExcluded excludeBookingId b
    · rw [if_pos hex]; exact ih _ _
    · rw [if_neg hex, if_neg (by simp)]; exact ih _ _

/-- C3: an empty requested slot set yields the empty, non-conflicting result
rather than an error, and so does a date with no approved records. -/
theorem claim_c3_empty_inputs (store : Store) (date : String)
    (timeSlots : List String) (pitchType : PitchType) (excludeBookingId : Option String) :
    checkConflicts store date [] pitchType excludeBookingId
        = { hasConflict := false, conflictingBookings := [], conflictingSlots := [] }
      ∧ ((∀ b ∈ store, ¬(b.bookingDate = date ∧ b.status = BookingStatus.approved)) →
          checkConflicts store date timeSlots pitchType excludeBookingId
            = { hasConflict := false, conflictingBookings := [], conflictingSlots := [] }) := by
  constructor
  · simp [checkConflicts, checkConflictsLoop_nil_slots]
  · intro h
    have happ : getApprovedBookingsByDate store date = [] := by
      rw [getApprovedBookingsByDate, List.filter_eq_nil_iff]
      intro b hb
      simp only [Bool.and_eq_true, beq_iff_eq, not_and]
      intro h1 h2
      exact h b hb ⟨h1, h2⟩
    simp [checkConflicts, happ, checkConflictsLoop]

/-- C3 witness: a store with only a pending record has no approved record for
the date, so the result is empty and non-conflicting. -/
theorem claim_c3_witness :
    checkConflicts [rcPendingSingle] "2025-06-02" ["09:00"] PitchType.single_court none
      = { hasConflict := false, conflictingBookings := [], conflictingSlots := [] } :=
  (claim_c3_empty_inputs [rcPendingSingle] "2025-06-02" ["09:00"]
      PitchType.single_court none).2 (by decide)

/-- C5: with a duplicate-free requested slot set, the reported slots are
duplicate-free and are exactly the requested slots held by some reported
conflicting booking — no more, no less. -/
theorem claim_c5_conflictingSlots_exact (store : Store) (date : String)
    (timeSlots : List String) (pitchType : PitchType) (excludeBookingId : Option String)
    (hnd : timeSlots.Nodup) :
    (checkConflicts store date timeSlots pitchType excludeBookingId).conflictingSlots.Nodup
      ∧ ∀ s, s ∈ (checkConflicts store date timeSlots pitchType
            excludeBookingId).conflictingSlots
          ↔ s ∈ timeSlots ∧ ∃ b ∈ (checkConflicts store date timeSlots pitchType
              excludeBookingId).conflictingBookings, s ∈ b.timeSlots := by
  constructor
  · exact checkConflictsLoop_snd_nodup timeSlots pitchType excludeBookingId
      (getApprovedBookingsByDate store date) hnd [] [] List.nodup_nil
  · intro s
    rw [checkConflicts_mem_conflictingSlots]
    constructor
    · rintro ⟨b, hb, hs, hsb⟩
      exact ⟨hs, b, hb, hsb⟩
    · rintro ⟨hs, b, hb, hsb⟩
      exact ⟨b, hb, hs, hsb⟩

/-- C5 witness at spec §8 scenario A: exactly the overlap is listed. -/
theorem claim_c5_witness :
    (checkConflicts [rcFullPitch] "2025-06-01" ["18:30", "19:00"] PitchType.single_court
        none).conflictingSlots.Nodup
      ∧ ("18:30" ∈ (checkConflicts [rcFullPitch] "2025-06-01" ["18:30", "19:00"]
            PitchType.single_court none).conflictingSlots
          ↔ "18:30" ∈ (["18:30", "19:00"] : List String)
            ∧ ∃ b ∈ (checkConflicts [rcFullPitch] "2025-06-01" ["18:30", "19:00"]
                PitchType.single_court none).conflictingBookings,
                "18:30" ∈ b.timeSlots) :=
  ⟨(claim_c5_conflictingSlots_exact [rcFullPitch] "2025-06-01" ["18:30", "19:00"]
      PitchType.single_court none (by decide)).1,
   (claim_c5_conflictingSlots_exact [rcFullPitch] "2025-06-01" ["18:30", "19:00"]
      PitchType.single_court none (by decide)).2 "18:30"⟩

/-- C10: over the closed two-value pitch-type set the granularity guard is a
tautology, so any approved, non-excluded record of the date overlapping the
requested slots forces `hasConflict`, whatever either pitch type is. -/
theorem claim_c10_overlap_suffices (store : Store) (date : String)
    (timeSlots : List String) (pitchType : PitchType) (excludeBookingId : Option String)
    (b : BookingRequest) (hmem : b ∈ store) (hst : b.status = BookingStatus.approved)
    (hdate : b.bookingDate = date) (hex : isExcluded excludeBookingId b = false)
    (hover : ∃ s ∈ timeSlots, s ∈ b.timeSlots) :
    (∀ p q : PitchType, isConflict p q = true)
      ∧ (checkConflicts store date timeSlots pitchType excludeBookingId).hasConflict
          = true := by
  have hguard : ∀ p q : PitchType, isConflict p q = true := by
    intro p q
    cases p <;> cases q <;> rfl
  refine ⟨hguard, ?_⟩
  rw [checkConflicts_hasConflict_iff]
  intro hnil
  have hb : b ∈ (checkConflicts store date timeSlots pitchType
      excludeBookingId).conflictingBookings := by
    rw [checkConflicts_conflictingBookings, List.mem_filter]
    exact ⟨(mem_getApprovedBookingsByDate _ _ _).mpr ⟨hmem, hdate, hst⟩,
      (conflictsWith_iff _ _ _ _).mpr ⟨hex, overlap_length_pos hover, hguard _ _⟩⟩
  rw [hnil] at hb
  exact absurd hb (List.not_mem_nil _)

/-- C10 witness: a single-court approved record blocks a single-court request
on an overlapping slot. -/
theorem claim_c10_witness :
    (checkConflicts [rcApprovedSingle] "2025-06-03" ["10:30"] PitchType.single_court
        none).hasConflict = true :=
  (claim_c10_overlap_suffices [rcApprovedSingle] "2025-06-03" ["10:30"]
      PitchType.single_court none rcApprovedSingle (List.mem_singleton_self _) rfl rfl rfl
      ⟨"10:30", by decide, by decide⟩).2

/-- With a non-empty exclusion id, skipping matching bookings inside the loop
is the same as deleting them from the traversed list beforehand. -/
theorem checkConflictsLoop_exclude (timeSlots : List String) (pitchType : PitchType)
    {e : String} (he : e ≠ "") (l : List BookingRequest) :
    ∀ (accB : List BookingRequest) (accS : List String),
      checkConflictsLoop timeSlots pitchType (some e) l accB accS
        = checkConflictsLoop timeSlots pitchType none
            (l.filter (fun b => !(b.id == e))) accB accS := by
  induction l with
  | nil => intro accB accS; rfl
  | cons b rest ih =>
    intro accB accS
    by_cases hid : b.id == e
    · have hexc : isExcluded (some e) b = true := by
        simp [isExcluded, hid, bne_iff_ne, he]
      rw [List.filter_cons_of_neg (by simp [hid])]
      simp only [checkConflictsLoop]
      rw [hexc, if_pos rfl]
      exact ih _ _
    · have hexc : isExcluded (some e) b = false := by simp [isExcluded, hid]
      have hexn : isExcluded none b = false := rfl
      rw [List.filter_cons_of_pos (by simp [hid])]
      simp only [checkConflictsLoop]
      rw [hexc, hexn, if_neg Bool.false_ne_true, if_neg Bool.false_ne_true]
      by_cases hov : (timeSlots.filter (fun slot => b.timeSlots.contains slot)).length > 0
      · by_cases hc : isConflict b.pitchType pitchType
        · rw [if_pos hov, if_pos hov, if_pos hc, if_pos hc]
          exact ih _ _
        · rw [if_pos hov, if_pos hov, if_neg hc, if_neg hc]
          exact ih _ _
      · rw [if_neg hov, if_neg hov]
        exact ih _ _

/-- Filtering the store commutes with the approved-by-date retrieval. -/
theorem getApproved_filter_comm (store : Store) (p : BookingRequest → Bool)
    (date : String) :
    getApprovedBookingsByDate (store.filter p) date
      = (getApprovedBookingsByDate store date).filter p := by
  simp only [getApprovedBookingsByDate, List.filter_filter]
  congr 1
  funext b
  exact Bool.and_comm _ _

/-- C4 counterexample: with the empty string as the exclusion id and a store
record whose id is the empty string, JavaScript truthiness keeps the record as
a conflict source, while the claim says it behaves like removing the record. -/
theorem claim_c4_counterexample :
    (checkConflicts [rcEmptyId] "2025-06-01" ["18:00"] PitchType.single_court
        (some "")).hasConflict = true
      ∧ (checkConflicts (List.filter (fun b => !(b.id == "")) [rcEmptyId]) "2025-06-01"
          ["18:00"] PitchType.single_court none).hasConflict = false := by
  decide

/-- C4 amended: for every NON-EMPTY record id `e`, calling `checkConflicts`
with `excludeId = e` returns the same result as calling it, without exclusion,
on the store with every record of id `e` removed. -/
theorem claim_c4_exclude_eq_removal (store : Store) (date : String)
    (timeSlots : List String) (pitchType : PitchType) (e : String) (he : e ≠ "") :
    checkConflicts store date timeSlots pitchType (some e)
      = checkConflicts (store.filter (fun b => !(b.id == e))) date timeSlots pitchType
          none := by
  simp only [checkConflicts, getApproved_filter_comm]
  rw [checkConflictsLoop_exclude timeSlots pitchType he]

/-- C4 witness: excluding the sole approved record clears the conflict, the
same as removing it. -/
theorem claim_c4_witness :
    checkConflicts [rcApprovedSingle] "2025-06-03" ["10:00"] PitchType.single_court
        (some "rec-c")
      = checkConflicts (List.filter (fun b => !(b.id == "rec-c")) [rcApprovedSingle])
          "2025-06-03" ["10:00"] PitchType.single_court none :=
  claim_c4_exclude_eq_removal [rcApprovedSingle] "2025-06-03" ["10:00"]
    PitchType.single_court "rec-c" (by decide)

/-- Membership in the by-date-and-status retrieval. -/
theorem mem_getBookingsByDateAndStatus (store : Store) (date : String)
    (st : BookingStatus) (b : BookingRequest) :
    b ∈ getBookingsByDateAndStatus store date st
      ↔ b ∈ store ∧ b.bookingDate = date ∧ b.status = st := by
  simp [getBookingsByDateAndStatus, List.mem_filter, and_assoc]

/-- Every entry of one status group carries that group's literal status. -/
theorem mem_flatMap_bookingEntries_status (st : BookingStatus)
    (l : List BookingRequest) :
    ∀ entry ∈ l.flatMap (bookingEntries st), entry.status = st := by
  intro entry he
  simp only [List.mem_flatMap, bookingEntries, List.mem_map] at he
  obtain ⟨b, _, s, _, rfl⟩ := he
  rfl

/-- When every record of a group holds the group's status, the literal status
written by the route equals the record's stored status. -/
theorem flatMap_bookingEntries_status (st : BookingStatus) :
    ∀ l : List BookingRequest, (∀ b ∈ l, b.status = st) →
      l.flatMap (bookingEntries st)
        = l.flatMap (fun b => b.timeSlots.map (fun slot =>
            { timeSlot := slot, pitchType := b.pitchType, status := b.status })) := by
  intro l
  induction l with
  | nil => intro _; rfl
  | cons b rest ih =>
    intro h
    simp only [List.flatMap_cons]
    rw [ih (fun x hx => h x (List.mem_cons_of_mem _ hx)), h b (List.mem_cons_self _ _)]
    rfl

/-- The availability entry sequence is the per-record expansion of the
approved records followed by the pending records, each record contributing
its slots in stored array order with its own stored status. -/
theorem getAvailability_takenSlots (store : Store) (date : String) :
    (getAvailability store date).takenSlots
      = (getApprovedBookingsByDate store date
          ++ getBookingsByDateAndStatus store date BookingStatus.pending).flatMap
          (fun b => b.timeSlots.map (fun slot =>
            { timeSlot := slot, pitchType := b.pitchType, status := b.status })) := by
  simp only [getAvailability, List.flatMap_append]
  congr 1
  · exact flatMap_bookingEntries_status _ _
      (fun b hb => ((mem_getApprovedBookingsByDate _ _ _).mp hb).2.2)
  · exact flatMap_bookingEntries_status _ _
      (fun b hb => ((mem_getBookingsByDateAndStatus _ _ _ _).mp hb).2.2)

/-- In a concatenation of an all-approved group and an all-pending group,
every approved entry sits at a strictly smaller index than every pending
entry. -/
theorem append_status_order {A P : List TakenSlot}
    (hA : ∀ entry ∈ A, entry.status = BookingStatus.approved)
    (hP : ∀ entry ∈ P, entry.status = BookingStatus.pending)
    (i j : Nat) (hi : i < (A ++ P).length) (hj : j < (A ++ P).length)
    (hai : ((A ++ P).get ⟨i, hi⟩).status = BookingStatus.approved)
    (hpj : ((A ++ P).get ⟨j, hj⟩).status = BookingStatus.pending) :
    i < j := by
  have hiA : i < A.length := by
    by_contra hge
    push_neg at hge
    rw [List.get_append_right' hge hi,
      hP (P.get ⟨i - A.length, List.get_append_right_aux hge hi⟩)
        (List.get_mem _ _ _)] at hai
    exact BookingStatus.noConfusion hai
  have hjA : A.length ≤ j := by
    by_contra hlt
    push_neg at hlt
    rw [List.get_append j hlt, hA (A.get ⟨j, hlt⟩) (List.get_mem _ _ _)] at hpj
    exact BookingStatus.noConfusion hpj
  exact lt_of_lt_of_le hiA hjA

/-- C6 counterexample: a record stored with a descending slot array surfaces
its entries in stored order, not ascending order — the route never sorts. -/
theorem claim_c6_counterexample :
    ((getAvailability [rcUnsorted] "2025-07-01").takenSlots.map TakenSlot.timeSlot)
        = ["19:00", "18:00"]
      ∧ ¬ List.Sorted (fun a b : String => a ≤ b)
          ((getAvailability [rcUnsorted] "2025-07-01").takenSlots.map
            TakenSlot.timeSlot) := by
  refine ⟨rfl, ?_⟩
  intro h
  rw [show ((getAvailability [rcUnsorted] "2025-07-01").takenSlots.map
      TakenSlot.timeSlot) = ["19:00", "18:00"] from rfl] at h
  have hle := (List.sorted_cons.mp h).1 _ (List.mem_singleton_self _)
  rw [String.le_iff_toList_le] at hle
  exact absurd hle (by decide)

/-- C6 (amended): approved-derived entries all precede pending-derived
entries; within each status group entries follow the records' retrieval
order, and the slots of each record appear in that record's STORED ARRAY
order (ascending only when the stored array is sorted — the route does not
re-sort). -/
theorem claim_c6_entry_order (store : Store) (date : String) :
    (∀ (i j : Nat) (hi : i < (getAvailability store date).takenSlots.length)
        (hj : j < (getAvailability store date).takenSlots.length),
        ((getAvailability store date).takenSlots.get ⟨i, hi⟩).status
            = BookingStatus.approved →
        ((getAvailability store date).takenSlots.get ⟨j, hj⟩).status
            = BookingStatus.pending →
        i < j)
      ∧ (getAvailability store date).takenSlots
          = (getApprovedBookingsByDate store date
              ++ getBookingsByDateAndStatus store date BookingStatus.pending).flatMap
              (fun b => b.timeSlots.map (fun slot =>
                { timeSlot := slot, pitchType := b.pitchType,
                  status := b.status })) := by
  refine ⟨?_, getAvailability_takenSlots store date⟩
  intro i j hi hj hai hpj
  exact append_status_order (mem_flatMap_bookingEntries_status _ _)
    (mem_flatMap_bookingEntries_status _ _) i j hi hj hai hpj

/-- A pending record on the same date as `rcApprovedSingle`. -/
def rcPendingLate : BookingRequest :=
  { id := "rec-d", name := "Iris", email := "iris@example.com", phone := "0400000006",
    age := 35, reason := "school holiday program", estimatedAttendees := 20,
    pitchType := PitchType.full_pitch, bookingDate := "2025-06-03",
    timeSlots := ["11:00"], frequency := BookingFrequency.one_off,
    status := BookingStatus.pending, adminNotes := none, createdAt := 0 }

/-- C6 witness: in a store with one approved and one pending record of the
date, the approved entry at index 0 precedes the pending entry at index 2. -/
theorem claim_c6_witness :
    (0 : Nat) < 2 :=
  (claim_c6_entry_order [rcApprovedSingle, rcPendingLate] "2025-06-03").1
    0 2 (by decide) (by decide) (by decide) (by decide)

/-- The entry count of one status group is the total slot count of its
records. -/
theorem length_flatMap_bookingEntries (st : BookingStatus) :
    ∀ l : List BookingRequest,
      (l.flatMap (bookingEntries st)).length
        = (l.map (fun b => b.timeSlots.length)).sum := by
  intro l
  induction l with
  | nil => rfl
  | cons b rest ih =>
    simp only [List.flatMap_cons, List.length_append, List.map_cons, List.sum_cons,
      bookingEntries, List.length_map, ih]

/-- C7: availability never surfaces a declined record, surfaces one entry per
(record, slot) pair of every approved and pending record of the date, and
returns record counts (not slot-entry counts). -/
theorem claim_c7_availability_contents (store : Store) (date : String) :
    (∀ entry ∈ (getAvailability store date).takenSlots,
        entry.status ≠ BookingStatus.declined)
      ∧ (∀ b ∈ store, b.bookingDate = date →
          (b.status = BookingStatus.approved ∨ b.status = BookingStatus.pending) →
          ∀ s ∈ b.timeSlots,
            ({ timeSlot := s, pitchType := b.pitchType, status := b.status } : TakenSlot)
              ∈ (getAvailability store date).takenSlots)
      ∧ (getAvailability store date).takenSlots.length
          = ((getApprovedBookingsByDate store date).map
                (fun b => b.timeSlots.length)).sum
            + ((getBookingsByDateAndStatus store date BookingStatus.pending).map
                (fun b => b.timeSlots.length)).sum
      ∧ (getAvailability store date).approvedBookingsCount
          = store.countP (fun b => b.bookingDate == date
              && b.status == BookingStatus.approved)
      ∧ (getAvailability store date).pendingBookingsCount
          = store.countP (fun b => b.bookingDate == date
              && b.status == BookingStatus.pending) := by
  refine ⟨?_, ?_, ?_, ?_, ?_⟩
  · intro entry he
    rcases List.mem_append.mp he with h | h
    · rw [mem_flatMap_bookingEntries_status _ _ _ h]
      exact fun hcontra => BookingStatus.noConfusion hcontra
    · rw [mem_flatMap_bookingEntries_status _ _ _ h]
      exact fun hcontra => BookingStatus.noConfusion hcontra
  · intro b hb hdate hstat s hs
    rw [getAvailability_takenSlots]
    refine List.mem_flatMap.mpr ⟨b, ?_, List.mem_map.mpr ⟨s, hs, rfl⟩⟩
    rcases hstat with h | h
    · exact List.mem_append_left _
        ((mem_getApprovedBookingsByDate _ _ _).mpr ⟨hb, hdate, h⟩)
    · exact List.mem_append_right _
        ((mem_getBookingsByDateAndStatus _ _ _ _).mpr ⟨hb, hdate, h⟩)
  · simp only [getAvailability, List.length_append, length_flatMap_bookingEntries]
  · exact (List.countP_eq_length_filter _ _).symm
  · exact (List.countP_eq_length_filter _ _).symm

/-- C7 witness: spec §8 scenario C entry for the pending record. -/
theorem claim_c7_witness :
    ({ timeSlot := "09:00", pitchType := PitchType.single_court,
        status := BookingStatus.pending } : TakenSlot)
      ∈ (getAvailability [rcPendingSingle] "2025-06-02").takenSlots :=
  (claim_c7_availability_contents [rcPendingSingle] "2025-06-02").2.1 rcPendingSingle
    (List.mem_singleton_self _) rfl (Or.inr rfl) "09:00" (List.mem_singleton_self _)

/-- A matched row keeps its id through the SET clause. -/
theorem applyStatusUpdate_id (status : BookingStatus) (adminNotes : Option String)
    (booking : BookingRequest) :
    (applyStatusUpdate status adminNotes booking).id = booking.id := rfl

/-- A matched row carries the new status after the SET clause. -/
theorem applyStatusUpdate_status (status : BookingStatus) (adminNotes : Option String)
    (booking : BookingRequest) :
    (applyStatusUpdate status adminNotes booking).status = status := rfl

/-- Behaviour of the status route when the body fails Zod validation: the
parse throws before any store access. -/
theorem patchBookingStatus_parse_none (store : Store) (id : String)
    (rawStatus : String) (adminNotes : Option String)
    (h : parseBookingStatus rawStatus = none) :
    patchBookingStatus store id rawStatus adminNotes
      = (Except.error StatusUpdateError.invalidState, store) := by
  unfold patchBookingStatus
  rw [h]

/-- Behaviour of the status route once the body parsed: it runs the update. -/
theorem patchBookingStatus_parse_some (store : Store) (id : String)
    (rawStatus : String) (adminNotes : Option String) (status : BookingStatus)
    (h : parseBookingStatus rawStatus = some status) :
    patchBookingStatus store id rawStatus adminNotes
      = (match updateBookingStatus store id status adminNotes with
          | (none, updated) => (Except.error StatusUpdateError.notFound, updated)
          | (some booking, updated) => (Except.ok booking, updated)) := by
  unfold patchBookingStatus
  rw [h]

/-- C8 counterexample: the status route accepts `"pending"` for a record whose
current status is the terminal Approved and resets it to Pending — the closed
enum of `updateBookingStatusSchema` includes `pending` and the update never
inspects the current status. -/
theorem claim_c8_counterexample :
    patchBookingStatus [rcApprovedSingle] "rec-c" "pending" none
      = (Except.ok { rcApprovedSingle with status := BookingStatus.pending },
         [{ rcApprovedSingle with status := BookingStatus.pending }]) := by
  rfl

/-- C8 (amended): the workflow accepts any status of the closed set regardless
of the record's current status: submitting `"pending"` for any existing record
— including one in a terminal state — succeeds and resets it to Pending. -/
theorem claim_c8_reopen_allowed (store : Store) (id : String)
    (adminNotes : Option String) (b : BookingRequest) (hb : b ∈ store)
    (hid : b.id = id) :
    ∃ (r : BookingRequest) (newStore : Store),
      patchBookingStatus store id "pending" adminNotes = (Except.ok r, newStore)
        ∧ r.status = BookingStatus.pending ∧ r.id = id := by
  have hparse : parseBookingStatus "pending" = some BookingStatus.pending := rfl
  rw [patchBookingStatus_parse_some store id "pending" adminNotes
    BookingStatus.pending hparse]
  simp only [updateBookingStatus]
  have hsome : ((store.map (fun x => if x.id == id then
      applyStatusUpdate BookingStatus.pending adminNotes x else x)).find?
        (fun x => x.id == id)).isSome := by
    rw [List.find?_isSome]
    refine ⟨applyStatusUpdate BookingStatus.pending adminNotes b, ?_, by simpa using hid⟩
    have harm : (if b.id == id then applyStatusUpdate BookingStatus.pending adminNotes b
        else b) = applyStatusUpdate BookingStatus.pending adminNotes b :=
      if_pos (by simpa using hid)
    exact harm ▸ List.mem_map_of_mem _ hb
  obtain ⟨r, hfind⟩ := Option.isSome_iff_exists.mp hsome
  rw [hfind]
  refine ⟨r, _, rfl, ?_, ?_⟩
  · obtain ⟨x, _, hfx⟩ := List.mem_map.mp (List.mem_of_find?_eq_some hfind)
    have hpr : (r.id == id) = true := by simpa using List.find?_some hfind
    cases hxid : x.id == id with
    | false =>
      rw [hxid] at hfx
      simp only [Bool.false_eq_true, if_false] at hfx
      rw [← hfx] at hpr
      rw [hxid] at hpr
      exact Bool.noConfusion hpr
    | true =>
      rw [hxid] at hfx
      simp only [if_true] at hfx
      rw [← hfx]
      rfl
  · exact beq_iff_eq.mp (by simpa using List.find?_some hfind)

/-- C8 witness: an Approved record is reset to Pending. -/
theorem claim_c8_witness :
    ∃ (r : BookingRequest) (newStore : Store),
      patchBookingStatus [rcApprovedSingle] "rec-c" "pending" none
          = (Except.ok r, newStore)
        ∧ r.status = BookingStatus.pending ∧ r.id = "rec-c" :=
  claim_c8_reopen_allowed [rcApprovedSingle] "rec-c" none rcApprovedSingle
    (List.mem_singleton_self _) rfl

/-- C9: an unknown id signals NotFound, a status outside the closed set
signals InvalidState, and in every failing case the store — hence the
targeted record — is left entirely unchanged. -/
theorem claim_c9_error_atomicity (store : Store) (id : String) (rawStatus : String)
    (adminNotes : Option String) :
    (parseBookingStatus rawStatus = none →
        patchBookingStatus store id rawStatus adminNotes
          = (Except.error StatusUpdateError.invalidState, store))
      ∧ ((∀ b ∈ store, b.id ≠ id) →
          ∀ st, parseBookingStatus rawStatus = some st →
            patchBookingStatus store id rawStatus adminNotes
              = (Except.error StatusUpdateError.notFound, store))
      ∧ (∀ (err : StatusUpdateError) (newStore : Store),
          patchBookingStatus store id rawStatus adminNotes
            = (Except.error err, newStore) →
          newStore = store) := by
  refine ⟨?_, ?_, ?_⟩
  · exact patchBookingStatus_parse_none store id rawStatus adminNotes
  · intro hno st hst
    have hmap : store.map (fun b => if b.id == id then
        applyStatusUpdate st adminNotes b else b) = store := by
      have hcongr : store.map (fun b => if b.id == id then
          applyStatusUpdate st adminNotes b else b) = store.map (fun b => b) :=
        List.map_congr_left (fun b hb => by
          simp [(by simpa using hno b hb : (b.id == id) = false)])
      rw [List.map_id'] at hcongr
      exact hcongr
    have hfind : store.find? (fun b => b.id == id) = none :=
      List.find?_eq_none.mpr (fun x hx => by simpa using hno x hx)
    rw [patchBookingStatus_parse_some store id rawStatus adminNotes st hst]
    simp only [updateBookingStatus]
    rw [hmap, hfind]
  · intro err newStore h
    cases hparse : parseBookingStatus rawStatus with
    | none =>
      rw [patchBookingStatus_parse_none store id rawStatus adminNotes hparse] at h
      exact (Prod.mk.injEq _ _ _ _ ▸ h : _ ∧ _).2.symm
    | some st =>
      rw [patchBookingStatus_parse_some store id rawStatus adminNotes st hparse] at h
      simp only [updateBookingStatus] at h
      cases hfind : (store.map (fun b => if b.id == id then
          applyStatusUpdate st adminNotes b else b)).find? (fun b => b.id == id) with
      | some r =>
        rw [hfind] at h
        exact Except.noConfusion (congrArg Prod.fst h)
      | none =>
        rw [hfind] at h
        have hall : ∀ b ∈ store, (b.id == id) = false := by
          intro b hb
          cases hbb : b.id == id with
          | false => rfl
          | true =>
            exfalso
            have hmem : applyStatusUpdate st adminNotes b ∈ store.map
                (fun x => if x.id == id then applyStatusUpdate st adminNotes x else x) := by
              have harm : (if b.id == id then applyStatusUpdate st adminNotes b else b)
                  = applyStatusUpdate st adminNotes b := if_pos hbb
              exact harm ▸ List.mem_map_of_mem _ hb
            exact List.find?_eq_none.mp hfind _ hmem hbb
        have hmap : store.map (fun b => if b.id == id then
            applyStatusUpdate st adminNotes b else b) = store := by
          have hcongr : store.map (fun b => if b.id == id then
              applyStatusUpdate st adminNotes b else b) = store.map (fun b => b) :=
            List.map_congr_left (fun b hb => by simp [hall b hb])
          rw [List.map_id'] at hcongr
          exact hcongr
        have hsnd := congrArg Prod.snd h
        simp only at hsnd
        rw [← hsnd, hmap]

/-- C9 witness: an invalid status value and an unknown id each fail without
mutating the store. -/
theorem claim_c9_witness :
    patchBookingStatus [rcApprovedSingle] "rec-c" "bogus" none
        = (Except.error StatusUpdateError.invalidState, [rcApprovedSingle])
      ∧ patchBookingStatus [rcApprovedSingle] "missing" "approved" none
        = (Except.error StatusUpdateError.notFound, [rcApprovedSingle]) :=
  ⟨(claim_c9_error_atomicity [rcApprovedSingle] "rec-c" "bogus" none).1 rfl,
   (claim_c9_error_atomicity [rcApprovedSingle] "missing" "approved" none).2.1
     (by decide) BookingStatus.approved rfl⟩
